import Mathlib

/-!
Verification development for the FinPilot trading-simulation core.

The Python source is shallowly embedded in Lean 4:
* pandas feature rows become a `FeatureRow` structure whose fields can be
  absent from the row (`FField.missing`), present but NaN (`FField.nan`)
  or a plain rational number (`FField.val`);
* float comparisons against NaN are `false`, as in IEEE/Python, which is
  made explicit by pattern-matching on the `Option ℚ` produced by `fget`
  (`none` models NaN);
* money amounts, prices and indicator values are exact rationals;
* `raise` in a constructor is modelled by an `Option` result.
-/

namespace FinPilot

/-- A feature field of a pandas row: absent, NaN, or a numeric value. -/
inductive FField where
  | missing : FField
  | nan : FField
  | val : ℚ → FField
deriving DecidableEq

/-- `Series.get(key, default)`: the default is substituted only when the key
is absent; a present NaN stays NaN (`none`). -/
def fget : FField → Option ℚ → Option ℚ
  | .missing, d => d
  | .nan, _ => none
  | .val q, _ => some q

/-- One per-day feature row as consumed by the core.  The pipeline
(`FeatureEngineer.generate_all_features`) always emits a `price` column and
drops all-NaN rows, so `price` is modelled as present-but-possibly-NaN
(`Option ℚ`); all other indicator columns may additionally be absent. -/
structure FeatureRow where
  price : Option ℚ := some 0
  ret : FField := .missing
  duvol : FField := .missing
  ncskew : FField := .missing
  volatility_10d : FField := .missing
  volatility_30d : FField := .missing
  nasdaq_returns : FField := .missing
  rsi : FField := .missing
  ma_crossover : FField := .missing
  canary_signal : FField := .missing
deriving DecidableEq

/-! ## RegimeDetector (src/regime_detector.py) -/

/-- Market regime states (`MarketRegime`). -/
inductive MarketRegime where
  | normal : MarketRegime
  | crash : MarketRegime
  | recovery : MarketRegime
deriving DecidableEq

/-- `MarketRegime.value` — the string label stored in the output series. -/
def MarketRegime.value : MarketRegime → String
  | .normal => "normal"
  | .crash => "crash"
  | .recovery => "recovery"

/-- Configuration of `RegimeDetector.__init__` with its defaults. -/
structure RegimeDetector where
  duvol_threshold : ℚ := 1/2
  nasdaq_drop_threshold : ℚ := -3/100
  volatility_ratio_threshold : ℚ := 1
deriving DecidableEq

/-- `RegimeDetector.detect_crash_regime`: NaN duvol is replaced by 0; the
other two conditions are IEEE comparisons, hence `false` on NaN. -/
def RegimeDetector.detect_crash_regime (d : RegimeDetector)
    (duvol nasdaq_return canary_signal : Option ℚ) : Bool :=
  let dv : ℚ := match duvol with
    | none => 0
    | some q => q
  decide (dv > d.duvol_threshold) ||
    (match nasdaq_return with
      | none => false
      | some q => decide (q < d.nasdaq_drop_threshold)) ||
    (match canary_signal with
      | none => false
      | some q => decide (q = 1))

/-- `RegimeDetector.detect_recovery_complete`: false when either volatility
is NaN or the 30-day volatility is zero; otherwise the 10/30 ratio is
compared against the threshold. -/
def RegimeDetector.detect_recovery_complete (d : RegimeDetector)
    (volatility_10d volatility_30d : Option ℚ) : Bool :=
  match volatility_10d, volatility_30d with
  | some v10, some v30 =>
      if v30 = 0 then false
      else decide (v10 / v30 < d.volatility_ratio_threshold)
  | _, _ => false

/-- `RegimeDetector.get_regime`: one state-machine step from the previous
regime and the current feature row. -/
def RegimeDetector.get_regime (d : RegimeDetector) (features : FeatureRow)
    (current_regime : MarketRegime) : MarketRegime :=
  let duvol := fget features.duvol (some 0)
  let nasdaq_returns := fget features.nasdaq_returns (some 0)
  let canary_signal := fget features.canary_signal (some 0)
  let volatility_10d := fget features.volatility_10d (some 0)
  let volatility_30d := fget features.volatility_30d (some 0)
  let is_crash := d.detect_crash_regime duvol nasdaq_returns canary_signal
  match current_regime with
  | .normal => if is_crash then .crash else .normal
  | .crash => .recovery
  | .recovery =>
      if is_crash then .crash
      else if d.detect_recovery_complete volatility_10d volatility_30d then .normal
      else .recovery

/-- The left-to-right scan of `RegimeDetector.detect_regimes`, carrying the
running regime. -/
def RegimeDetector.detectFrom (d : RegimeDetector) (current : MarketRegime) :
    List FeatureRow → List String
  | [] => []
  | row :: rest =>
      let nxt := d.get_regime row current
      nxt.value :: d.detectFrom nxt rest

/-- `RegimeDetector.detect_regimes`: label series aligned with the rows,
starting from NORMAL. -/
def RegimeDetector.detect_regimes (d : RegimeDetector)
    (features : List FeatureRow) : List String :=
  d.detectFrom .normal features

/-! ## CrashIntensityScorer (src/crash_intensity.py) -/

/-- `CrashIntensityConfig` with its dataclass defaults. -/
structure CrashIntensityConfig where
  duvol_weight : ℚ := 1/4
  ncskew_weight : ℚ := 1/5
  volatility_weight : ℚ := 1/4
  canary_weight : ℚ := 3/20
  momentum_weight : ℚ := 3/20
  duvol_high : ℚ := 1
  ncskew_high : ℚ := 2
  vol_spike_multiplier : ℚ := 3
  recovery_threshold : ℚ := 3/5
  min_recovery_days : ℤ := 3
  scaling_steps : ℤ := 4
deriving DecidableEq

/-- Sum of the five component weights checked by `_validate_config`. -/
def CrashIntensityConfig.weightTotal (c : CrashIntensityConfig) : ℚ :=
  c.duvol_weight + c.ncskew_weight + c.volatility_weight +
    c.canary_weight + c.momentum_weight

/-- `CrashIntensityScorer.__init__` + `_validate_config`: the constructor
raises (`none`) when the weights are off by more than 0.01 from 1.0, and
otherwise stores the configuration unchanged. -/
def mkCrashIntensityScorer (config : CrashIntensityConfig) :
    Option CrashIntensityConfig :=
  if |config.weightTotal - 1| > 1/100 then none else some config

/-- `CrashIntensityScorer._normalize_to_100`. -/
def normalize_to_100 (value low high : ℚ) : ℚ :=
  if high = low then 50
  else min (max ((value - low) / (high - low) * 100) 0) 100

/-- `CrashIntensityScorer.calculate_duvol_intensity` (NaN → 0). -/
def calculate_duvol_intensity (c : CrashIntensityConfig) : Option ℚ → ℚ
  | none => 0
  | some duvol => normalize_to_100 duvol 0 c.duvol_high

/-- `CrashIntensityScorer.calculate_ncskew_intensity` (NaN → 0). -/
def calculate_ncskew_intensity (c : CrashIntensityConfig) : Option ℚ → ℚ
  | none => 0
  | some ncskew => normalize_to_100 ncskew 0 c.ncskew_high

/-- `CrashIntensityScorer.calculate_volatility_intensity`: 0 when either
volatility is NaN or the average is ≤ 0. -/
def calculate_volatility_intensity (c : CrashIntensityConfig) :
    Option ℚ → Option ℚ → ℚ
  | some current_vol, some avg_vol =>
      if avg_vol ≤ 0 then 0
      else normalize_to_100 (current_vol / avg_vol) 1 c.vol_spike_multiplier
  | _, _ => 0

/-- `CrashIntensityScorer.calculate_momentum_intensity`: 0 for NaN or
non-negative 5-day return, else the magnitude mapped on [0, 0.20]. -/
def calculate_momentum_intensity : Option ℚ → ℚ
  | none => 0
  | some returns_5d =>
      if returns_5d ≥ 0 then 0
      else normalize_to_100 |returns_5d| 0 (1/5)

/-- `CrashIntensityScorer.calculate_canary_intensity`: 0 for NaN or
non-negative NASDAQ return, else the magnitude mapped on [0, 0.05]. -/
def calculate_canary_intensity : Option ℚ → ℚ
  | none => 0
  | some nasdaq_return =>
      if nasdaq_return ≥ 0 then 0
      else normalize_to_100 |nasdaq_return| 0 (1/20)

/-- The source's 5-day momentum approximation inside
`calculate_crash_intensity`: the daily return times 5, with NaN (and an
absent key, via the default 0) replaced by 0 before the multiplication. -/
def returns_5d_of (features : FeatureRow) : ℚ :=
  match fget features.ret (some 0) with
  | none => 0
  | some r => r * 5

/-- `CrashIntensityScorer.calculate_crash_intensity`: weighted sum of the
five sub-scores, capped at 100.  Field defaults follow the source: absent
fields default to 0, except `volatility_30d`, which defaults to the
(already fetched) `volatility_10d`. -/
def calculate_crash_intensity (c : CrashIntensityConfig)
    (features : FeatureRow) : ℚ :=
  let duvol := fget features.duvol (some 0)
  let ncskew := fget features.ncskew (some 0)
  let vol_10d := fget features.volatility_10d (some 0)
  let vol_30d := fget features.volatility_30d vol_10d
  let nasdaq_return := fget features.nasdaq_returns (some 0)
  let returns_5d : ℚ := returns_5d_of features
  let duvol_int := calculate_duvol_intensity c duvol
  let ncskew_int := calculate_ncskew_intensity c ncskew
  let vol_int := calculate_volatility_intensity c vol_10d vol_30d
  let momentum_int := calculate_momentum_intensity (some returns_5d)
  let canary_int := calculate_canary_intensity nasdaq_return
  let cis :=
    c.duvol_weight * duvol_int +
    c.ncskew_weight * ncskew_int +
    c.volatility_weight * vol_int +
    c.momentum_weight * momentum_int +
    c.canary_weight * canary_int
  min cis 100

/-- `CrashIntensityScorer.calculate_proportional_position`. -/
def calculate_proportional_position (crash_intensity : ℚ)
    (base_position : ℚ := 1) : ℚ :=
  if crash_intensity < 20 then base_position
  else if crash_intensity > 80 then 0
  else base_position * (1 - (crash_intensity - 20) / 60)

/-! ## TradingStrategy (src/strategy.py) -/

/-- `Position` enum. -/
inductive Position where
  | LONG : Position
  | CASH : Position
deriving DecidableEq

/-- `Position.value` (1 for LONG, 0 for CASH). -/
def Position.value : Position → ℤ
  | .LONG => 1
  | .CASH => 0

/-- `TradingStrategy.__init__` with its defaults. -/
structure TradingStrategy where
  rsi_oversold : ℚ := 30
  rsi_overbought : ℚ := 70
  stop_loss_pct : ℚ := 1/20
  max_position_size : ℚ := 1
  volatility_target : ℚ := 1/50
deriving DecidableEq

/-- `TradingStrategy.calculate_position_size`: NaN (`none`) or non-positive
volatility gives the maximum size; otherwise inverse-volatility scaling
capped at the maximum. -/
def TradingStrategy.calculate_position_size (s : TradingStrategy) :
    Option ℚ → ℚ
  | none => s.max_position_size
  | some volatility =>
      if volatility ≤ 0 then s.max_position_size
      else min (s.volatility_target / volatility) s.max_position_size

/-- `TradingStrategy.check_stop_loss`.  A NaN entry price fails both the
`entry_price <= 0` test and the final `loss_pct >= stop_loss_pct` test in
Python, hence `false`; a NaN current price makes the loss NaN, hence
`false`. -/
def TradingStrategy.check_stop_loss (s : TradingStrategy)
    (entry_price current_price : Option ℚ) : Bool :=
  match entry_price with
  | none => false
  | some e =>
      if e ≤ 0 then false
      else match current_price with
        | none => false
        | some p => decide ((e - p) / e ≥ s.stop_loss_pct)

/-- `TradingStrategy.generate_normal_signal`: LONG on oversold RSI or a
bullish MA crossover, CASH on overbought RSI, otherwise no signal
(`none` models the Python `None`). -/
def TradingStrategy.generate_normal_signal (s : TradingStrategy)
    (features : FeatureRow) : Option Position :=
  let rsi := fget features.rsi (some 50)
  let ma_crossover := fget features.ma_crossover (some 0)
  if (match rsi with
      | none => false
      | some r => decide (r < s.rsi_oversold)) ||
     (match ma_crossover with
      | none => false
      | some m => decide (m = 1)) then some .LONG
  else if (match rsi with
      | none => false
      | some r => decide (r > s.rsi_overbought)) then some .CASH
  else none

/-- `TradingStrategy.generate_signal`: regime override, then stop-loss,
then the trend signal, holding the prior position when there is no
signal. -/
def TradingStrategy.generate_signal (s : TradingStrategy)
    (features : FeatureRow) (regime : String)
    (current_position : Position) (entry_price : Option ℚ) :
    Position × ℚ :=
  let current_price := features.price
  let volatility := fget features.volatility_10d (some (1/50))
  if regime = "crash" ∨ regime = "recovery" then (.CASH, 0)
  else if current_position = .LONG ∧
      s.check_stop_loss entry_price current_price then (.CASH, 0)
  else match s.generate_normal_signal features with
    | none =>
        if current_position = .LONG then
          (.LONG, s.calculate_position_size volatility)
        else (.CASH, 0)
    | some .LONG => (.LONG, s.calculate_position_size volatility)
    | some .CASH => (.CASH, 0)

/-- One output row of `TradingStrategy.run_strategy`. -/
structure SignalRecord where
  signal : ℤ
  position : Position
  position_size : ℚ
  entry_price : Option ℚ
deriving DecidableEq

/-- The loop body state of `run_strategy`: the carried position and the
carried entry price (`some 0` is the cleared sentinel; `none` models a NaN
price recorded at entry). -/
structure StratState where
  pos : Position
  entry : Option ℚ
deriving DecidableEq

/-- One iteration of the `run_strategy` loop: generate the signal, then
update the tracked entry price (set on CASH→LONG from the row's price,
cleared to 0.0 on any CASH day). -/
def TradingStrategy.strategyStep (s : TradingStrategy)
    (st : StratState) (row : FeatureRow) (regime : String) :
    StratState × SignalRecord :=
  let res := s.generate_signal row regime st.pos st.entry
  let new_entry : Option ℚ :=
    if res.1 = .LONG ∧ st.pos = .CASH then row.price
    else if res.1 = .CASH then some 0
    else st.entry
  (⟨res.1, new_entry⟩,
   ⟨res.1.value, res.1, res.2, new_entry⟩)

/-- The fold of `run_strategy` over index-aligned (row, regime) pairs. -/
def TradingStrategy.runFrom (s : TradingStrategy) (st : StratState) :
    List (FeatureRow × String) → List SignalRecord
  | [] => []
  | (row, regime) :: rest =>
      let step := s.strategyStep st row regime
      step.2 :: s.runFrom step.1 rest

/-- `TradingStrategy.run_strategy`: starts in CASH with entry price 0.0 and
walks the rows paired with their regime labels. -/
def TradingStrategy.run_strategy (s : TradingStrategy)
    (features : List FeatureRow) (regimes : List String) :
    List SignalRecord :=
  s.runFrom ⟨.CASH, some 0⟩ (features.zip regimes)

/-! ## Backtester (src/backtester.py) -/

/-- `Backtester.__init__` with its defaults. -/
structure Backtester where
  initial_capital : ℚ := 100000
  slippage_pct : ℚ := 1/1000
  commission_pct : ℚ := 0
deriving DecidableEq

/-- `Backtester.calculate_transaction_costs`: slippage plus commission,
each a fixed fraction of the absolute trade value. -/
def Backtester.calculate_transaction_costs (b : Backtester)
    (trade_value : ℚ) : ℚ :=
  |trade_value| * b.slippage_pct + |trade_value| * b.commission_pct

/-- One output row of `Backtester.run_backtest`. -/
structure BTRecord where
  price : ℚ
  signal : ℤ
  position_size : ℚ
  cash : ℚ
  holdings : ℚ
  holdings_value : ℚ
  portfolio_value : ℚ
  trade_type : Option String
  trade_cost : ℚ
deriving DecidableEq

/-- Loop state of `run_backtest`: cash, units held and the previous
signal. -/
structure BTState where
  cash : ℚ
  holdings : ℚ
  prev_signal : ℤ
deriving DecidableEq

/-- One iteration of the `run_backtest` loop: trade on a 0→1 or 1→0 signal
transition, then mark portfolio value to the day's price. -/
def Backtester.backtestStep (b : Backtester) (st : BTState)
    (price : ℚ) (signal : ℤ) (position_size : ℚ) : BTState × BTRecord :=
  let traded :=
    if signal ≠ st.prev_signal then
      if signal = 1 ∧ st.prev_signal = 0 then
        let target_value := st.cash * position_size
        let trade_cost := b.calculate_transaction_costs target_value
        (st.cash - target_value, (target_value - trade_cost) / price,
          some "BUY", trade_cost)
      else if signal = 0 ∧ st.prev_signal = 1 then
        let sell_value := st.holdings * price
        let trade_cost := b.calculate_transaction_costs sell_value
        (st.cash + sell_value - trade_cost, 0, some "SELL", trade_cost)
      else (st.cash, st.holdings, none, 0)
    else (st.cash, st.holdings, none, 0)
  let portfolio_value := traded.1 + traded.2.1 * price
  (⟨traded.1, traded.2.1, signal⟩,
   ⟨price, signal, position_size, traded.1, traded.2.1,
     traded.2.1 * price, portfolio_value, traded.2.2.1, traded.2.2.2⟩)

/-- The fold of `run_backtest` over index-aligned (price, signal, size)
triples. -/
def Backtester.runBacktestFrom (b : Backtester) (st : BTState) :
    List (ℚ × ℤ × ℚ) → List BTRecord
  | [] => []
  | (price, signal, size) :: rest =>
      let step := b.backtestStep st price signal size
      step.2 :: b.runBacktestFrom step.1 rest

/-- `Backtester.run_backtest` on the joined per-day (price, signal,
position_size) sequence, starting with all capital in cash and no
position. -/
def Backtester.run_backtest (b : Backtester)
    (days : List (ℚ × ℤ × ℚ)) : List BTRecord :=
  b.runBacktestFrom ⟨b.initial_capital, 0, 0⟩ days

/-- One output row of `Backtester.run_buy_and_hold`. -/
structure BHRecord where
  price : ℚ
  portfolio_value : ℚ
deriving DecidableEq

/-- `Backtester.run_buy_and_hold`: invests `initial_capital × (1 −
slippage_pct)` in units at the first price and marks to market every day
(note: the source deducts only slippage here, not commission). -/
def Backtester.run_buy_and_hold (b : Backtester) (prices : List ℚ) :
    List BHRecord :=
  match prices with
  | [] => []
  | initial_price :: _ =>
      let holdings := b.initial_capital * (1 - b.slippage_pct) / initial_price
      prices.map (fun p => ⟨p, holdings * p⟩)

/-! ### Portfolio backtest (`Backtester.run_portfolio_backtest`)

Assets are indexed by `Fin n` in the column order of the price frame; a
day's input is the pair (price vector, target-weight vector) after the
source's index alignment. -/

/-- Mutable state inside one rebalance: cash, units per asset, and the
day's accumulated trade cost. -/
structure RebState (n : ℕ) where
  cash : ℚ
  holdings : Fin n → ℚ
  tcost : ℚ
deriving DecidableEq

/-- One sell leg of the rebalance (first pass): if the target value is
below the current value, sell the difference, charging the transaction
cost against the proceeds. -/
def Backtester.sellLeg (b : Backtester) {n : ℕ} (pv : ℚ)
    (pr tw : Fin n → ℚ) (st : RebState n) (a : Fin n) : RebState n :=
  let target_val := pv * tw a
  let current_val := st.holdings a * pr a
  if target_val < current_val then
    let sell_val := current_val - target_val
    let cost := b.calculate_transaction_costs sell_val
    let units_to_sell := sell_val / pr a
    ⟨st.cash + (sell_val - cost),
      Function.update st.holdings a (st.holdings a - units_to_sell),
      st.tcost + cost⟩
  else st

/-- One buy leg of the rebalance (second pass): buy up to the target
value, capped at the cash available at that moment; the transaction cost
comes out of the invested notional. -/
def Backtester.buyLeg (b : Backtester) {n : ℕ} (pv : ℚ)
    (pr tw : Fin n → ℚ) (st : RebState n) (a : Fin n) : RebState n :=
  let target_val := pv * tw a
  let current_val := st.holdings a * pr a
  if target_val > current_val then
    let raw_val := target_val - current_val
    let buy_val := if raw_val > st.cash then st.cash else raw_val
    if buy_val > 0 then
      let cost := b.calculate_transaction_costs buy_val
      let units_to_buy := (buy_val - cost) / pr a
      ⟨st.cash - buy_val,
        Function.update st.holdings a (st.holdings a + units_to_buy),
        st.tcost + cost⟩
    else st
  else st

/-- One output row of `run_portfolio_backtest`. -/
structure PRecord (n : ℕ) where
  portfolio_value : ℚ
  cash : ℚ
  trade_cost : ℚ
  units : Fin n → ℚ
  weight : Fin n → ℚ
deriving DecidableEq

/-- End-of-rebalance cash/holdings carried to the next day. -/
structure PortState (n : ℕ) where
  cash : ℚ
  holdings : Fin n → ℚ
deriving DecidableEq

/-- One day of `run_portfolio_backtest`: mark to market, test the drift of
every asset against the rebalance threshold, and if any drifts, run the
sell pass then the buy pass over the assets in column order. -/
def Backtester.portfolioStep (b : Backtester) {n : ℕ}
    (rebalance_threshold : ℚ) (st : PortState n)
    (pr tw : Fin n → ℚ) : PortState n × PRecord n :=
  let pv := st.cash + ∑ a : Fin n, st.holdings a * pr a
  let cw : Fin n → ℚ :=
    if pv > 0 then fun a => st.holdings a * pr a / pv else fun _ => 0
  let needs_rebalance :=
    (List.finRange n).any (fun a => decide (|cw a - tw a| > rebalance_threshold))
  let reb : RebState n :=
    if needs_rebalance then
      (List.finRange n).foldl (b.buyLeg pv pr tw)
        ((List.finRange n).foldl (b.sellLeg pv pr tw) ⟨st.cash, st.holdings, 0⟩)
    else ⟨st.cash, st.holdings, 0⟩
  let pv2 := reb.cash + ∑ a : Fin n, reb.holdings a * pr a
  (⟨reb.cash, reb.holdings⟩,
   ⟨pv2, reb.cash, reb.tcost, reb.holdings,
     fun a => if pv2 > 0 then reb.holdings a * pr a / pv2 else 0⟩)

/-- The fold of `run_portfolio_backtest` over aligned days. -/
def Backtester.runPortfolioFrom (b : Backtester) {n : ℕ}
    (rebalance_threshold : ℚ) (st : PortState n) :
    List ((Fin n → ℚ) × (Fin n → ℚ)) → List (PRecord n)
  | [] => []
  | (pr, tw) :: rest =>
      let step := b.portfolioStep rebalance_threshold st pr tw
      step.2 :: b.runPortfolioFrom rebalance_threshold step.1 rest

/-- `Backtester.run_portfolio_backtest`: starts with all capital in cash
and zero holdings; `days` is the index-aligned list of (prices, target
weights) vectors. -/
def Backtester.run_portfolio_backtest (b : Backtester) {n : ℕ}
    (days : List ((Fin n → ℚ) × (Fin n → ℚ)))
    (rebalance_threshold : ℚ := 1/100) : List (PRecord n) :=
  b.runPortfolioFrom rebalance_threshold ⟨b.initial_capital, fun _ => 0⟩ days

/-! ## Theorems -/

/-- C4: proportional position law: `calculate_proportional_position`
returns `base_position` unchanged when CIS < 20, 0 when CIS > 80, the
linear ramp `base_position × (1 − (CIS−20)/60)` in between, equals 1.0 at
CIS = 0 (base 1.0), lies strictly between 0 and 1 at CIS = 50, equals 0
for every CIS ≥ 80, and is continuous at the breakpoints 20 and 80 (the
ramp value there agrees with the adjacent constant branch). -/
theorem c4_proportional_position_law (cis base : ℚ) :
    (cis < 20 → calculate_proportional_position cis base = base) ∧
    (cis > 80 → calculate_proportional_position cis base = 0) ∧
    (20 ≤ cis → cis ≤ 80 →
      calculate_proportional_position cis base = base * (1 - (cis - 20) / 60)) ∧
    (80 ≤ cis → calculate_proportional_position cis base = 0) ∧
    calculate_proportional_position 0 1 = 1 ∧
    0 < calculate_proportional_position 50 1 ∧
    calculate_proportional_position 50 1 < 1 ∧
    calculate_proportional_position 20 base = base * (1 - (20 - 20) / 60) ∧
    calculate_proportional_position 20 base = base ∧
    calculate_proportional_position 80 base = 0 := by
  unfold calculate_proportional_position
  refine ⟨fun h => by simp [h], fun h => ?_, fun h1 h2 => ?_, fun h => ?_,
    by norm_num, by norm_num, by norm_num, by norm_num, by norm_num, by norm_num⟩
  · rw [if_neg (by linarith), if_pos h]
  · rw [if_neg (by linarith), if_neg (by linarith)]
  · by_cases h80 : cis > 80
    · rw [if_neg (by linarith), if_pos h80]
    · have hcis : cis = 80 := le_antisymm (by linarith) h
      subst hcis
      norm_num

/-- C4 witness: the law instantiated at CIS 10, 90, 50 and 85 with base
position 2. -/
theorem c4_proportional_position_law_witness :
    calculate_proportional_position 10 2 = 2 ∧
    calculate_proportional_position 90 2 = 0 ∧
    calculate_proportional_position 50 2 = 2 * (1 - (50 - 20) / 60) ∧
    calculate_proportional_position 85 2 = 0 :=
  ⟨(c4_proportional_position_law 10 2).1 (by norm_num),
   (c4_proportional_position_law 90 2).2.1 (by norm_num),
   (c4_proportional_position_law 50 2).2.2.1 (by norm_num) (by norm_num),
   (c4_proportional_position_law 85 2).2.2.2.1 (by norm_num)⟩

/-- A deliberately invalid configuration: the five weights sum to 0.9. -/
def badCISConfig : CrashIntensityConfig :=
  { duvol_weight := 1/4, ncskew_weight := 1/5, volatility_weight := 1/4,
    canary_weight := 3/20, momentum_weight := 1/20 }

/-- C8: constructing a `CrashIntensityScorer` fails exactly when the five
component weights sum to more than 0.01 away from 1.0; on success the
configuration is stored unchanged; the default configuration constructs
successfully. -/
theorem c8_config_validation (c : CrashIntensityConfig) :
    (mkCrashIntensityScorer c = none ↔ |c.weightTotal - 1| > 1/100) ∧
    (∀ stored, mkCrashIntensityScorer c = some stored → stored = c) ∧
    mkCrashIntensityScorer {} = some {} := by
  refine ⟨?_, ?_,
    by norm_num [mkCrashIntensityScorer, CrashIntensityConfig.weightTotal]⟩
  · unfold mkCrashIntensityScorer
    split_ifs with h
    · simpa using h
    · simpa using h
  · intro stored hstored
    unfold mkCrashIntensityScorer at hstored
    split_ifs at hstored with h
    exact (Option.some_injective _ hstored).symm

/-- C8 witness: weights summing to 0.9 are rejected, and a stored default
configuration round-trips unchanged. -/
theorem c8_config_validation_witness :
    mkCrashIntensityScorer badCISConfig = none ∧
    ({} : CrashIntensityConfig) = ({} : CrashIntensityConfig) :=
  ⟨(c8_config_validation badCISConfig).1.mpr (by
      rw [show badCISConfig.weightTotal - 1 = -(1/10) by
        norm_num [badCISConfig, CrashIntensityConfig.weightTotal]]
      rw [abs_neg, abs_of_nonneg (by norm_num : (0:ℚ) ≤ 1/10)]
      norm_num),
   (c8_config_validation {}).2.1 {} (c8_config_validation {}).2.2⟩

/-- Any CASH record emitted by one strategy step carries the cleared
sentinel entry price 0.0. -/
lemma strategyStep_cash_entry (s : TradingStrategy) (st : StratState)
    (row : FeatureRow) (regime : String)
    (h : (s.strategyStep st row regime).2.position = .CASH) :
    (s.strategyStep st row regime).2.entry_price = some 0 := by
  unfold TradingStrategy.strategyStep at h ⊢
  dsimp only at h ⊢
  rcases hval : (s.generate_signal row regime st.pos st.entry).1 with _ | _
  · rw [hval] at h
    cases h
  · simp

/-- C10: `check_stop_loss` returns `false` for every entry price ≤ 0 (the
guard makes the division unreachable there, so the function never
raises), and every record that `run_strategy` emits in CASH carries the
cleared sentinel entry price 0.0 — which therefore can never trigger a
stop-loss. -/
theorem c10_stop_loss_guard (s : TradingStrategy) :
    (∀ entry current : ℚ, entry ≤ 0 →
      s.check_stop_loss (some entry) (some current) = false) ∧
    (∀ current, s.check_stop_loss (some 0) current = false) ∧
    (∀ rows regimes rec, rec ∈ s.run_strategy rows regimes →
      rec.position = .CASH → rec.entry_price = some 0) := by
  refine ⟨?_, ?_, ?_⟩
  · intro entry current h
    simp [TradingStrategy.check_stop_loss, if_pos h]
  · intro current
    simp [TradingStrategy.check_stop_loss]
  · intro rows regimes rec hmem hpos
    unfold TradingStrategy.run_strategy at hmem
    suffices h : ∀ (days : List (FeatureRow × String)) (st : StratState),
        rec ∈ s.runFrom st days → rec.entry_price = some 0 from h _ _ hmem
    intro days
    induction days with
    | nil =>
        intro st hmem2
        simp [TradingStrategy.runFrom] at hmem2
    | cons day rest ih =>
        intro st hmem2
        obtain ⟨row, regime⟩ := day
        simp only [TradingStrategy.runFrom, List.mem_cons] at hmem2
        rcases hmem2 with hhead | htail
        · subst hhead
          exact strategyStep_cash_entry s st row regime hpos
        · exact ih _ htail

/-- C10 witness: the guard at entry price −3 and at the sentinel 0, and
the CASH record emitted on a crash day carries entry price 0. -/
theorem c10_stop_loss_guard_witness :
    TradingStrategy.check_stop_loss {} (some (-3)) (some 5) = false ∧
    TradingStrategy.check_stop_loss {} (some 0) (some 5) = false ∧
    (⟨0, .CASH, 0, some 0⟩ : SignalRecord).entry_price = some 0 :=
  ⟨(c10_stop_loss_guard {}).1 (-3) 5 (by norm_num),
   (c10_stop_loss_guard {}).2.1 (some 5),
   (c10_stop_loss_guard {}).2.2 [{ price := some 100 }] ["crash"]
     ⟨0, .CASH, 0, some 0⟩ (by decide) rfl⟩

/-! ### C3: the regime state machine, stated from the claim's words -/

/-- The claim's crash trigger: `duvol > duvol_threshold` (NaN duvol
treated as 0) OR `nasdaq_return < nasdaq_drop_threshold` OR
`canary_signal == 1`, read from the row with the neutral defaults. -/
def isCrashSpecC3 (d : RegimeDetector) (row : FeatureRow) : Bool :=
  (match fget row.duvol (some 0) with
    | none => decide ((0:ℚ) > d.duvol_threshold)
    | some q => decide (q > d.duvol_threshold)) ||
  (match fget row.nasdaq_returns (some 0) with
    | none => false
    | some q => decide (q < d.nasdaq_drop_threshold)) ||
  (match fget row.canary_signal (some 0) with
    | none => false
    | some q => decide (q = 1))

/-- The claim's recovery-complete test: `volatility_10d / volatility_30d <
volatility_ratio_threshold`, false when either volatility is NaN or the
30-day value is zero. -/
def recoveryCompleteSpecC3 (d : RegimeDetector) (row : FeatureRow) : Bool :=
  match fget row.volatility_10d (some 0), fget row.volatility_30d (some 0) with
  | some v10, some v30 =>
      if v30 = 0 then false
      else decide (v10 / v30 < d.volatility_ratio_threshold)
  | _, _ => false

/-- The claim's per-row transition: NORMAL→CRASH exactly on is_crash,
CRASH→RECOVERY unconditionally, RECOVERY→CRASH on is_crash, else
RECOVERY→NORMAL exactly on recovery-complete, else stay RECOVERY. -/
def regimeStepSpecC3 (d : RegimeDetector) (row : FeatureRow) :
    MarketRegime → MarketRegime
  | .normal => if isCrashSpecC3 d row then .crash else .normal
  | .crash => .recovery
  | .recovery =>
      if isCrashSpecC3 d row then .crash
      else if recoveryCompleteSpecC3 d row then .normal
      else .recovery

/-- The claim's left-to-right scan starting from a given state. -/
def regimeScanSpecC3 (d : RegimeDetector) (st : MarketRegime) :
    List FeatureRow → List MarketRegime
  | [] => []
  | row :: rest =>
      let nxt := regimeStepSpecC3 d row st
      nxt :: regimeScanSpecC3 d nxt rest

/-- The source transition function agrees with the claim's transition. -/
lemma get_regime_eq_spec (d : RegimeDetector) (row : FeatureRow)
    (st : MarketRegime) :
    d.get_regime row st = regimeStepSpecC3 d row st := by
  have hc : d.detect_crash_regime (fget row.duvol (some 0))
      (fget row.nasdaq_returns (some 0)) (fget row.canary_signal (some 0)) =
      isCrashSpecC3 d row := by
    unfold RegimeDetector.detect_crash_regime isCrashSpecC3
    cases fget row.duvol (some 0) <;> rfl
  have hr : d.detect_recovery_complete (fget row.volatility_10d (some 0))
      (fget row.volatility_30d (some 0)) = recoveryCompleteSpecC3 d row := rfl
  cases st <;> simp only [RegimeDetector.get_regime, regimeStepSpecC3, hc, hr]

/-- The source scan agrees with the claim's scan from any starting state. -/
lemma detectFrom_eq_scanSpec (d : RegimeDetector) (st : MarketRegime)
    (rows : List FeatureRow) :
    d.detectFrom st rows = (regimeScanSpecC3 d st rows).map MarketRegime.value := by
  induction rows generalizing st with
  | nil => rfl
  | cons row rest ih =>
      simp only [RegimeDetector.detectFrom, regimeScanSpecC3, List.map_cons,
        get_regime_eq_spec]
      exact congrArg _ (ih _)

/-- The claim's scan emits one label per row. -/
lemma regimeScanSpecC3_length (d : RegimeDetector) (st : MarketRegime)
    (rows : List FeatureRow) :
    (regimeScanSpecC3 d st rows).length = rows.length := by
  induction rows generalizing st with
  | nil => rfl
  | cons row rest ih => simp [regimeScanSpecC3, ih]

/-- C3: `detect_regimes` is exactly the claim's state machine: it scans
the rows left to right starting in NORMAL applying the claimed
per-row transition, and its output is aligned 1:1 with the input rows. -/
theorem c3_regime_state_machine (d : RegimeDetector) (rows : List FeatureRow) :
    (∀ row st, d.get_regime row st = regimeStepSpecC3 d row st) ∧
    d.detect_regimes rows =
      (regimeScanSpecC3 d .normal rows).map MarketRegime.value ∧
    (d.detect_regimes rows).length = rows.length := by
  refine ⟨fun row st => get_regime_eq_spec d row st,
    detectFrom_eq_scanSpec d .normal rows, ?_⟩
  unfold RegimeDetector.detect_regimes
  rw [detectFrom_eq_scanSpec d .normal rows]
  simp [regimeScanSpecC3_length]

/-! ### C7: buy-and-hold benchmark -/

/-- The claim's benchmark, stated from its words: invest the full initial
capital adjusted for transaction costs — slippage AND commission, each a
fixed percentage of the trade notional — into units at the first day's
price, and mark those units to market every day. -/
def buyHoldSpecC7 (b : Backtester) (prices : List ℚ) : List BHRecord :=
  match prices with
  | [] => []
  | initial_price :: _ =>
      let invested := b.initial_capital -
        b.calculate_transaction_costs b.initial_capital
      let holdings := invested / initial_price
      prices.map (fun p => ⟨p, holdings * p⟩)

/-- A backtester with zero slippage but 1% commission. -/
def commissionOnlyBT : Backtester :=
  { slippage_pct := 0, commission_pct := 1/100 }

/-- C7 counterexample: with zero slippage and 1% commission, the source's
benchmark invests the full capital (it deducts only slippage), while the
claim demands the commission be deducted as well: on the one-day price
series [100] the code records portfolio value 100000, the claim 99000. -/
theorem c7_buy_and_hold_counterexample :
    Backtester.run_buy_and_hold commissionOnlyBT [100] ≠
      buyHoldSpecC7 commissionOnlyBT [100] ∧
    (Backtester.run_buy_and_hold commissionOnlyBT [100]).map
      BHRecord.portfolio_value = [100000] ∧
    (buyHoldSpecC7 commissionOnlyBT [100]).map
      BHRecord.portfolio_value = [99000] := by
  refine ⟨?_, ?_, ?_⟩
  · intro h
    have := congrArg (fun l => (l.map BHRecord.portfolio_value)) h
    simp only [Backtester.run_buy_and_hold, buyHoldSpecC7,
      Backtester.calculate_transaction_costs, commissionOnlyBT,
      List.map_cons, List.map_nil] at this
    norm_num at this
  · norm_num [Backtester.run_buy_and_hold, commissionOnlyBT]
  · norm_num [buyHoldSpecC7, Backtester.calculate_transaction_costs,
      commissionOnlyBT]

/-- C7 amended: for every non-empty price series, `run_buy_and_hold`
invests `initial_capital × (1 − slippage_pct)` — only slippage is
deducted, commission is not — into units at the first day's price, never
trades again, and each day's recorded portfolio_value equals those units
times that day's price. -/
theorem c7_buy_and_hold_amended (b : Backtester) (prices : List ℚ)
    (initial_price : ℚ) (hhead : prices.head? = some initial_price) :
    Backtester.run_buy_and_hold b prices =
      prices.map (fun p =>
        ⟨p, b.initial_capital * (1 - b.slippage_pct) / initial_price * p⟩) := by
  cases prices with
  | nil => cases hhead
  | cons p0 rest =>
      have hp0 : p0 = initial_price := by
        simpa using hhead
      subst hp0
      rfl

/-- C7 amended witness: on the series [100, 110] with default costs (0.1%
slippage, no commission) every day is marked at `99900/100 × price`. -/
theorem c7_buy_and_hold_amended_witness :
    Backtester.run_buy_and_hold {} [100, 110] =
      [⟨100, 100000 * (1 - 1/1000) / 100 * 100⟩,
       ⟨110, 100000 * (1 - 1/1000) / 100 * 110⟩] := by
  have h := c7_buy_and_hold_amended {} [100, 110] 100 rfl
  simpa using h

/-! ### C6: single-asset per-day decision -/

/-- The claim's position size: `min(volatility_target / current_volatility,
max_position_size)`, with non-positive or NaN volatility giving
`max_position_size`; an absent volatility key defaults to 0.02 before the
formula (source behaviour of `features.get`). -/
def positionSizeC6 (s : TradingStrategy) (row : FeatureRow) : ℚ :=
  s.calculate_position_size (fget row.volatility_10d (some (1/50)))

/-- The claim's stop-loss condition exactly as written:
`(entry_price − current_price)/entry_price ≥ stop_loss_pct`, with no
positivity guard on the entry price (NaN operands give `false`). -/
def stopLossClaimC6 (s : TradingStrategy) (entry current : Option ℚ) : Bool :=
  match entry, current with
  | some e, some p => decide ((e - p) / e ≥ s.stop_loss_pct)
  | _, _ => false

/-- The amended stop-loss condition: as the claim, but only for a positive
entry price (the guard the source actually has). -/
def stopLossSpecC6 (s : TradingStrategy) (entry current : Option ℚ) : Bool :=
  match entry, current with
  | some e, some p => decide (0 < e ∧ (e - p) / e ≥ s.stop_loss_pct)
  | _, _ => false

/-- The per-day decision exactly as the claim states it (with the
unguarded stop-loss formula): crash/recovery forces CASH; then stop-loss;
then LONG on oversold RSI or bullish crossover, CASH on overbought RSI,
else hold the prior position; LONG always carries the volatility-scaled
size. -/
def signalSpecC6orig (s : TradingStrategy) (row : FeatureRow)
    (regime : String) (pos : Position) (entry : Option ℚ) : Position × ℚ :=
  if regime = "crash" ∨ regime = "recovery" then (.CASH, 0)
  else if pos = .LONG ∧ stopLossClaimC6 s entry row.price then (.CASH, 0)
  else if (match fget row.rsi (some 50) with
      | none => false
      | some r => decide (r < s.rsi_oversold)) ||
    (match fget row.ma_crossover (some 0) with
      | none => false
      | some m => decide (m = 1)) then (.LONG, positionSizeC6 s row)
  else if (match fget row.rsi (some 50) with
      | none => false
      | some r => decide (r > s.rsi_overbought)) then (.CASH, 0)
  else if pos = .LONG then (.LONG, positionSizeC6 s row) else (.CASH, 0)

/-- The per-day decision as amended: identical to `signalSpecC6orig`
except that the stop-loss clause additionally requires a positive entry
price. -/
def signalSpecC6 (s : TradingStrategy) (row : FeatureRow)
    (regime : String) (pos : Position) (entry : Option ℚ) : Position × ℚ :=
  if regime = "crash" ∨ regime = "recovery" then (.CASH, 0)
  else if pos = .LONG ∧ stopLossSpecC6 s entry row.price then (.CASH, 0)
  else if (match fget row.rsi (some 50) with
      | none => false
      | some r => decide (r < s.rsi_oversold)) ||
    (match fget row.ma_crossover (some 0) with
      | none => false
      | some m => decide (m = 1)) then (.LONG, positionSizeC6 s row)
  else if (match fget row.rsi (some 50) with
      | none => false
      | some r => decide (r > s.rsi_overbought)) then (.CASH, 0)
  else if pos = .LONG then (.LONG, positionSizeC6 s row) else (.CASH, 0)

/-- An oversold day at price 1 with no other indicators. -/
def rowC6 : FeatureRow := { price := some 1, rsi := .val 20 }

/-- C6 counterexample: with the default strategy, a LONG position whose
recorded entry price is −1 on a normal oversold day: the claim's raw
formula `(−1 − 1)/(−1) = 2 ≥ 0.05` demands (CASH, 0.0), but the source's
`entry_price <= 0` guard skips the stop-loss and the trend signal goes
LONG with full size. -/
theorem c6_signal_counterexample :
    TradingStrategy.generate_signal {} rowC6 "normal" .LONG (some (-1)) =
      (.LONG, 1) ∧
    signalSpecC6orig {} rowC6 "normal" .LONG (some (-1)) = (.CASH, 0) ∧
    TradingStrategy.generate_signal {} rowC6 "normal" .LONG (some (-1)) ≠
      signalSpecC6orig {} rowC6 "normal" .LONG (some (-1)) := by
  have h1 : TradingStrategy.generate_signal {} rowC6 "normal" .LONG
      (some (-1)) = (.LONG, 1) := by
    norm_num [TradingStrategy.generate_signal, TradingStrategy.check_stop_loss,
      TradingStrategy.generate_normal_signal,
      TradingStrategy.calculate_position_size, rowC6, fget]
    exact ⟨by decide, by decide⟩
  have h2 : signalSpecC6orig {} rowC6 "normal" .LONG (some (-1)) =
      (.CASH, 0) := by
    norm_num [signalSpecC6orig, stopLossClaimC6, rowC6, fget]
  refine ⟨h1, h2, ?_⟩
  rw [h1, h2]
  intro h
  have := congrArg Prod.fst h
  simp at this

/-- C6 amended: for every feature row, regime label, current position and
entry price, `generate_signal` implements the claimed decision procedure
with the stop-loss clause restricted to positive entry prices (the
source's `entry_price <= 0` guard). -/
theorem c6_signal_amended (s : TradingStrategy) (row : FeatureRow)
    (regime : String) (pos : Position) (entry : Option ℚ) :
    s.generate_signal row regime pos entry =
      signalSpecC6 s row regime pos entry := by
  have hstop : ∀ ep cp : Option ℚ, s.check_stop_loss ep cp =
      stopLossSpecC6 s ep cp := by
    intro ep cp
    rcases ep with _ | e
    · rfl
    · rcases cp with _ | p
      · unfold TradingStrategy.check_stop_loss stopLossSpecC6
        dsimp only
        split_ifs <;> rfl
      · unfold TradingStrategy.check_stop_loss stopLossSpecC6
        dsimp only
        by_cases he : e ≤ 0
        · rw [if_pos he]
          symm
          simp only [decide_eq_false_iff_not]
          intro hand
          exact absurd hand.1 (not_lt.mpr he)
        · rw [if_neg he]
          have h0 : 0 < e := not_le.mp he
          simp [h0]
  simp only [TradingStrategy.generate_signal, signalSpecC6,
    TradingStrategy.generate_normal_signal, positionSizeC6, hstop]
  split_ifs <;> rfl

/-! ### C1: the accounting identity -/

/-- Every record of the single-asset fold satisfies the accounting
identity, from any starting state, and one record is emitted per day. -/
lemma runBacktestFrom_identity (b : Backtester) (days : List (ℚ × ℤ × ℚ)) :
    ∀ st, (b.runBacktestFrom st days).length = days.length ∧
      ∀ rec ∈ b.runBacktestFrom st days,
        rec.portfolio_value = rec.cash + rec.holdings * rec.price := by
  induction days with
  | nil =>
      intro st
      refine ⟨rfl, fun rec h => ?_⟩
      simp [Backtester.runBacktestFrom] at h
  | cons day rest ih =>
      intro st
      obtain ⟨price, signal, size⟩ := day
      refine ⟨by simp [Backtester.runBacktestFrom, (ih _).1], fun rec h => ?_⟩
      simp only [Backtester.runBacktestFrom, List.mem_cons] at h
      rcases h with hh | ht
      · subst hh
        rfl
      · exact (ih _).2 rec ht

/-- Every record of the portfolio fold satisfies the accounting identity
against its own day's prices, from any starting state. -/
lemma runPortfolioFrom_identity (b : Backtester) {n : ℕ} (thr : ℚ)
    (days : List ((Fin n → ℚ) × (Fin n → ℚ))) :
    ∀ st, (b.runPortfolioFrom thr st days).length = days.length ∧
      ∀ pair ∈ days.zip (b.runPortfolioFrom thr st days),
        pair.2.portfolio_value =
          pair.2.cash + ∑ a, pair.2.units a * pair.1.1 a := by
  induction days with
  | nil =>
      intro st
      refine ⟨rfl, fun pair h => ?_⟩
      simp at h
  | cons day rest ih =>
      intro st
      obtain ⟨pr, tw⟩ := day
      refine ⟨by simp [Backtester.runPortfolioFrom, (ih _).1], fun pair h => ?_⟩
      simp only [Backtester.runPortfolioFrom, List.zip_cons_cons,
        List.mem_cons] at h
      rcases h with hh | ht
      · subst hh
        rfl
      · exact (ih _).2 pair ht

/-- C1: in both `run_backtest` and `run_portfolio_backtest`, for every
input sequence, one record is emitted per day and every recorded
portfolio_value equals that record's cash plus the sum over assets of
units held times that day's price, exactly. -/
theorem c1_accounting_identity :
    (∀ (b : Backtester) (days : List (ℚ × ℤ × ℚ)),
      (b.run_backtest days).length = days.length ∧
      ∀ rec ∈ b.run_backtest days,
        rec.portfolio_value = rec.cash + rec.holdings * rec.price) ∧
    (∀ (b : Backtester) (n : ℕ) (thr : ℚ)
      (days : List ((Fin n → ℚ) × (Fin n → ℚ))),
      (b.run_portfolio_backtest days thr).length = days.length ∧
      ∀ pair ∈ days.zip (b.run_portfolio_backtest days thr),
        pair.2.portfolio_value =
          pair.2.cash + ∑ a, pair.2.units a * pair.1.1 a) :=
  ⟨fun b days => runBacktestFrom_identity b days _,
   fun b n thr days => runPortfolioFrom_identity b thr days _⟩

/-- A backtester with zero slippage and zero commission. -/
def bNoCost : Backtester := { slippage_pct := 0 }

/-- C1 witness: a one-day BUY at price 100 with full size and no costs
(1000 units, zero cash, value 100000), and a one-day all-cash portfolio
day (target weights 0, no rebalance, value 100000). -/
theorem c1_accounting_identity_witness :
    (⟨100, 1, 1, 0, 1000, 100000, 100000, some "BUY", 0⟩ :
        BTRecord).portfolio_value =
      (0 : ℚ) + 1000 * 100 ∧
    (⟨100000, 100000, 0, fun _ => 0, fun _ => 0⟩ : PRecord 1).portfolio_value =
      (100000 : ℚ) + ∑ a : Fin 1,
        (fun _ : Fin 1 => (0:ℚ)) a * (fun _ : Fin 1 => (100:ℚ)) a := by
  have hmem1 : (⟨100, 1, 1, 0, 1000, 100000, 100000, some "BUY", 0⟩ :
      BTRecord) ∈ Backtester.run_backtest bNoCost [(100, 1, 1)] := by
    norm_num [Backtester.run_backtest, Backtester.runBacktestFrom,
      Backtester.backtestStep, Backtester.calculate_transaction_costs, bNoCost]
  have hmem2 : (((fun _ : Fin 1 => (100:ℚ)), (fun _ : Fin 1 => (0:ℚ))),
      (⟨100000, 100000, 0, fun _ => 0, fun _ => 0⟩ : PRecord 1)) ∈
      ([((fun _ : Fin 1 => (100:ℚ)), (fun _ : Fin 1 => (0:ℚ)))]).zip
        (Backtester.run_portfolio_backtest bNoCost
          [((fun _ : Fin 1 => (100:ℚ)), (fun _ : Fin 1 => (0:ℚ)))] (1/100)) := by
    have hfr : (List.finRange 1) = [(0 : Fin 1)] := rfl
    norm_num [Backtester.run_portfolio_backtest, Backtester.runPortfolioFrom,
      Backtester.portfolioStep, bNoCost, hfr]
  exact ⟨(c1_accounting_identity.1 bNoCost [(100, 1, 1)]).2 _ hmem1,
    (c1_accounting_identity.2 bNoCost 1 (1/100)
      [((fun _ : Fin 1 => (100:ℚ)), (fun _ : Fin 1 => (0:ℚ)))]).2 _ hmem2⟩

/-! ### C9: causality (no look-ahead) -/

/-- A prefix of the regime scan depends only on the same prefix of the
rows. -/
lemma detectFrom_take (d : RegimeDetector) :
    ∀ (rows : List FeatureRow) (st : MarketRegime) (t : ℕ),
      (d.detectFrom st rows).take t = d.detectFrom st (rows.take t) := by
  intro rows
  induction rows with
  | nil => intro st t; simp [RegimeDetector.detectFrom]
  | cons row rest ih =>
      intro st t
      cases t with
      | zero => simp [RegimeDetector.detectFrom]
      | succ t =>
          simp only [RegimeDetector.detectFrom, List.take_succ_cons]
          exact congrArg _ (ih _ t)

/-- A prefix of the strategy fold depends only on the same prefix of the
(row, regime) pairs. -/
lemma runFrom_take (s : TradingStrategy) :
    ∀ (days : List (FeatureRow × String)) (st : StratState) (t : ℕ),
      (s.runFrom st days).take t = s.runFrom st (days.take t) := by
  intro days
  induction days with
  | nil => intro st t; simp [TradingStrategy.runFrom]
  | cons day rest ih =>
      intro st t
      obtain ⟨row, regime⟩ := day
      cases t with
      | zero => simp [TradingStrategy.runFrom]
      | succ t =>
          simp only [TradingStrategy.runFrom, List.take_succ_cons]
          exact congrArg _ (ih _ t)

/-- Taking a prefix commutes with zipping. -/
lemma zip_take_take {α β : Type} (l1 : List α) :
    ∀ (l2 : List β) (t : ℕ),
      (l1.zip l2).take t = (l1.take t).zip (l2.take t) := by
  induction l1 with
  | nil => intro l2 t; simp
  | cons x rest ih =>
      intro l2 t
      cases l2 with
      | nil => simp
      | cons y l2rest =>
          cases t with
          | zero => simp
          | succ t =>
              simp only [List.zip_cons_cons, List.take_succ_cons]
              exact congrArg _ (ih l2rest t)

/-- C9: strict causality.  If two feature sequences agree on their first
`t` rows then `detect_regimes` agrees on the first `t` labels; if the
regime series also agree on their first `t` entries then `run_strategy`
agrees on the first `t` records (signal, position, size and entry price):
no output position depends on any later row. -/
theorem c9_causality (d : RegimeDetector) (s : TradingStrategy)
    (f1 f2 : List FeatureRow) (r1 r2 : List String) (t : ℕ)
    (hf : f1.take t = f2.take t) (hr : r1.take t = r2.take t) :
    (d.detect_regimes f1).take t = (d.detect_regimes f2).take t ∧
    (s.run_strategy f1 r1).take t = (s.run_strategy f2 r2).take t := by
  constructor
  · unfold RegimeDetector.detect_regimes
    rw [detectFrom_take, detectFrom_take, hf]
  · unfold TradingStrategy.run_strategy
    rw [runFrom_take, runFrom_take, zip_take_take, zip_take_take, hf, hr]

/-- C9 witness: two histories that share an identical first day (but
diverge on the second) produce the same first regime label and the same
first strategy record. -/
theorem c9_causality_witness :
    (RegimeDetector.detect_regimes {} [{ price := some 1 },
        { price := some 2, duvol := .val 9 }]).take 1 =
      (RegimeDetector.detect_regimes {} [{ price := some 1 },
        { price := some 3 }]).take 1 ∧
    (TradingStrategy.run_strategy {} [{ price := some 1 },
        { price := some 2, duvol := .val 9 }] ["normal", "crash"]).take 1 =
      (TradingStrategy.run_strategy {} [{ price := some 1 },
        { price := some 3 }] ["normal", "normal"]).take 1 :=
  c9_causality {} {} _ _ _ _ 1 rfl rfl

/-! ### C5: CIS bounds and per-signal monotonicity -/

lemma normalize_nonneg (v lo hi : ℚ) : 0 ≤ normalize_to_100 v lo hi := by
  unfold normalize_to_100
  split_ifs
  · norm_num
  · exact le_min (le_max_right _ _) (by norm_num)

lemma normalize_le_100 (v lo hi : ℚ) : normalize_to_100 v lo hi ≤ 100 := by
  unfold normalize_to_100
  split_ifs
  · norm_num
  · exact min_le_right _ _

lemma normalize_mono (v1 v2 lo hi : ℚ) (h : lo < hi) (hv : v1 ≤ v2) :
    normalize_to_100 v1 lo hi ≤ normalize_to_100 v2 lo hi := by
  unfold normalize_to_100
  rw [if_neg (ne_of_gt h), if_neg (ne_of_gt h)]
  refine min_le_min (max_le_max ?_ le_rfl) le_rfl
  have hpos : 0 < hi - lo := sub_pos.mpr h
  refine mul_le_mul_of_nonneg_right ?_ (by norm_num)
  exact (div_le_div_iff_of_pos_right hpos).mpr (by linarith)

lemma duvol_intensity_nonneg (c : CrashIntensityConfig) (v : Option ℚ) :
    0 ≤ calculate_duvol_intensity c v := by
  cases v <;> simp [calculate_duvol_intensity, normalize_nonneg]

lemma duvol_intensity_le_100 (c : CrashIntensityConfig) (v : Option ℚ) :
    calculate_duvol_intensity c v ≤ 100 := by
  cases v <;> simp [calculate_duvol_intensity, normalize_le_100]

lemma ncskew_intensity_nonneg (c : CrashIntensityConfig) (v : Option ℚ) :
    0 ≤ calculate_ncskew_intensity c v := by
  cases v <;> simp [calculate_ncskew_intensity, normalize_nonneg]

lemma vol_intensity_nonneg (c : CrashIntensityConfig) (v w : Option ℚ) :
    0 ≤ calculate_volatility_intensity c v w := by
  cases v with
  | none => cases w <;> simp [calculate_volatility_intensity]
  | some a =>
      cases w with
      | none => simp [calculate_volatility_intensity]
      | some b =>
          unfold calculate_volatility_intensity
          dsimp only
          split_ifs
          · norm_num
          · exact normalize_nonneg _ _ _

lemma momentum_intensity_nonneg (v : Option ℚ) :
    0 ≤ calculate_momentum_intensity v := by
  cases v with
  | none => simp [calculate_momentum_intensity]
  | some r =>
      unfold calculate_momentum_intensity
      dsimp only
      split_ifs
      · norm_num
      · exact normalize_nonneg _ _ _

lemma canary_intensity_nonneg (v : Option ℚ) :
    0 ≤ calculate_canary_intensity v := by
  cases v with
  | none => simp [calculate_canary_intensity]
  | some r =>
      unfold calculate_canary_intensity
      dsimp only
      split_ifs
      · norm_num
      · exact normalize_nonneg _ _ _

/-- The CIS is never negative once the five weights are non-negative. -/
lemma cis_nonneg (c : CrashIntensityConfig)
    (hdw : 0 ≤ c.duvol_weight) (hnw : 0 ≤ c.ncskew_weight)
    (hvw : 0 ≤ c.volatility_weight) (hcw : 0 ≤ c.canary_weight)
    (hmw : 0 ≤ c.momentum_weight) (row : FeatureRow) :
    0 ≤ calculate_crash_intensity c row := by
  simp only [calculate_crash_intensity]
  refine le_min ?_ (by norm_num)
  have h1 := mul_nonneg hdw (duvol_intensity_nonneg c (fget row.duvol (some 0)))
  have h2 := mul_nonneg hnw (ncskew_intensity_nonneg c (fget row.ncskew (some 0)))
  have h3 := mul_nonneg hvw (vol_intensity_nonneg c
    (fget row.volatility_10d (some 0))
    (fget row.volatility_30d (fget row.volatility_10d (some 0))))
  have h4 := mul_nonneg hmw (momentum_intensity_nonneg (some (returns_5d_of row)))
  have h5 := mul_nonneg hcw (canary_intensity_nonneg
    (fget row.nasdaq_returns (some 0)))
  linarith

/-- The cap makes the CIS at most 100. -/
lemma cis_le_100 (c : CrashIntensityConfig) (row : FeatureRow) :
    calculate_crash_intensity c row ≤ 100 := by
  simp only [calculate_crash_intensity]
  exact min_le_right _ _

/-- Monotonicity assembly: if every sub-score weakly increases between two
rows, the capped weighted sum weakly increases (weights non-negative). -/
lemma cis_mono_of_parts (c : CrashIntensityConfig)
    (hdw : 0 ≤ c.duvol_weight) (hnw : 0 ≤ c.ncskew_weight)
    (hvw : 0 ≤ c.volatility_weight) (hcw : 0 ≤ c.canary_weight)
    (hmw : 0 ≤ c.momentum_weight) (row1 row2 : FeatureRow)
    (h1 : calculate_duvol_intensity c (fget row1.duvol (some 0)) ≤
      calculate_duvol_intensity c (fget row2.duvol (some 0)))
    (h2 : calculate_ncskew_intensity c (fget row1.ncskew (some 0)) ≤
      calculate_ncskew_intensity c (fget row2.ncskew (some 0)))
    (h3 : calculate_volatility_intensity c (fget row1.volatility_10d (some 0))
        (fget row1.volatility_30d (fget row1.volatility_10d (some 0))) ≤
      calculate_volatility_intensity c (fget row2.volatility_10d (some 0))
        (fget row2.volatility_30d (fget row2.volatility_10d (some 0))))
    (h4 : calculate_momentum_intensity (some (returns_5d_of row1)) ≤
      calculate_momentum_intensity (some (returns_5d_of row2)))
    (h5 : calculate_canary_intensity (fget row1.nasdaq_returns (some 0)) ≤
      calculate_canary_intensity (fget row2.nasdaq_returns (some 0))) :
    calculate_crash_intensity c row1 ≤ calculate_crash_intensity c row2 := by
  simp only [calculate_crash_intensity]
  refine min_le_min ?_ le_rfl
  have g1 := mul_le_mul_of_nonneg_left h1 hdw
  have g2 := mul_le_mul_of_nonneg_left h2 hnw
  have g3 := mul_le_mul_of_nonneg_left h3 hvw
  have g4 := mul_le_mul_of_nonneg_left h4 hmw
  have g5 := mul_le_mul_of_nonneg_left h5 hcw
  linarith

lemma normalize_mono_from_one (m v1 v2 : ℚ) (hm : 1 ≤ m) (h : v1 ≤ v2) :
    normalize_to_100 v1 1 m ≤ normalize_to_100 v2 1 m := by
  rcases eq_or_lt_of_le hm with hm1 | hm1
  · unfold normalize_to_100
    rw [← hm1]
    simp
  · exact normalize_mono _ _ _ _ hm1 h

lemma duvol_part_mono (c : CrashIntensityConfig) (hdh : 0 < c.duvol_high)
    (x y : ℚ) (h : x ≤ y) :
    calculate_duvol_intensity c (some x) ≤ calculate_duvol_intensity c (some y) := by
  unfold calculate_duvol_intensity
  exact normalize_mono _ _ _ _ hdh h

lemma ncskew_part_mono (c : CrashIntensityConfig) (hnh : 0 < c.ncskew_high)
    (x y : ℚ) (h : x ≤ y) :
    calculate_ncskew_intensity c (some x) ≤ calculate_ncskew_intensity c (some y) := by
  unfold calculate_ncskew_intensity
  exact normalize_mono _ _ _ _ hnh h

/-- Raising the 10-day volatility (the numerator of the volatility ratio)
never lowers the spike intensity, whatever the 30-day field holds —
including the source's fallback of the 30-day value to the 10-day one. -/
lemma vol_part_mono (c : CrashIntensityConfig)
    (hvm : 1 ≤ c.vol_spike_multiplier) (f : FField) (x y : ℚ) (h : x ≤ y) :
    calculate_volatility_intensity c (some x) (fget f (some x)) ≤
      calculate_volatility_intensity c (some y) (fget f (some y)) := by
  cases f with
  | nan => simp [fget, calculate_volatility_intensity]
  | missing =>
      show calculate_volatility_intensity c (some x) (some x) ≤
        calculate_volatility_intensity c (some y) (some y)
      unfold calculate_volatility_intensity
      dsimp only
      by_cases hx : x ≤ 0
      · rw [if_pos hx]
        by_cases hy : y ≤ 0
        · rw [if_pos hy]
        · rw [if_neg hy]
          exact normalize_nonneg _ _ _
      · have hy : ¬ y ≤ 0 := fun hy => hx (le_trans h hy)
        rw [if_neg hx, if_neg hy, div_self (not_le.mp hx).ne',
          div_self (not_le.mp hy).ne']
  | val b =>
      show calculate_volatility_intensity c (some x) (some b) ≤
        calculate_volatility_intensity c (some y) (some b)
      unfold calculate_volatility_intensity
      dsimp only
      by_cases hb : b ≤ 0
      · rw [if_pos hb, if_pos hb]
      · rw [if_neg hb, if_neg hb]
        have hbpos : 0 < b := not_le.mp hb
        exact normalize_mono_from_one _ _ _ hvm
          ((div_le_div_iff_of_pos_right hbpos).mpr h)

/-- Increasing the magnitude of a negative 5-day return never lowers the
momentum intensity. -/
lemma momentum_part_mono (m1 m2 : ℚ) (h0 : 0 ≤ m1) (h : m1 ≤ m2) :
    calculate_momentum_intensity (some (-m1 * 5)) ≤
      calculate_momentum_intensity (some (-m2 * 5)) := by
  by_cases hz1 : (-m1 * 5 : ℚ) ≥ 0
  · have hLHS : calculate_momentum_intensity (some (-m1 * 5)) = 0 := by
      unfold calculate_momentum_intensity
      dsimp only
      rw [if_pos hz1]
    rw [hLHS]
    exact momentum_intensity_nonneg _
  · have hm1pos : 0 < m1 := by
      by_contra hc
      exact hz1 (by nlinarith [le_antisymm (not_lt.mp hc) h0])
    have hz2 : ¬ ((-m2 * 5 : ℚ) ≥ 0) := by
      intro hge
      nlinarith
    unfold calculate_momentum_intensity
    dsimp only
    rw [if_neg hz1, if_neg hz2]
    have ha1 : |(-m1 * 5 : ℚ)| = m1 * 5 := by
      rw [abs_of_nonpos (by linarith)]
      ring
    have ha2 : |(-m2 * 5 : ℚ)| = m2 * 5 := by
      rw [abs_of_nonpos (by linarith)]
      ring
    rw [ha1, ha2]
    exact normalize_mono _ _ _ _ (by norm_num) (by linarith)

/-- Increasing the magnitude of a negative NASDAQ return never lowers the
canary intensity. -/
lemma canary_part_mono (m1 m2 : ℚ) (h0 : 0 ≤ m1) (h : m1 ≤ m2) :
    calculate_canary_intensity (some (-m1)) ≤
      calculate_canary_intensity (some (-m2)) := by
  by_cases hz1 : (-m1 : ℚ) ≥ 0
  · have hLHS : calculate_canary_intensity (some (-m1)) = 0 := by
      unfold calculate_canary_intensity
      dsimp only
      rw [if_pos hz1]
    rw [hLHS]
    exact canary_intensity_nonneg _
  · have hm1pos : 0 < m1 := by
      by_contra hc
      exact hz1 (by linarith [le_antisymm (not_lt.mp hc) h0])
    have hz2 : ¬ ((-m2 : ℚ) ≥ 0) := by
      intro hge
      linarith
    unfold calculate_canary_intensity
    dsimp only
    rw [if_neg hz1, if_neg hz2]
    rw [abs_of_nonpos (by linarith : (-m1 : ℚ) ≤ 0),
      abs_of_nonpos (by linarith : (-m2 : ℚ) ≤ 0)]
    exact normalize_mono _ _ _ _ (by norm_num) (by linarith)

/-- C5: for every feature row — including rows with missing or NaN
fields — a validated configuration with non-negative weights (and the
positive normalization anchors the defaults have) keeps the CIS in
[0, 100]; and the CIS is monotonically non-decreasing in each individual
sub-signal holding the other fields fixed: in duvol, in ncskew, in the
10-day volatility (the numerator of the volatility ratio), in the
magnitude of a negative daily return (the source's 5-day momentum proxy)
and in the magnitude of a negative NASDAQ return. -/
theorem c5_cis_bounds_and_monotonicity (c : CrashIntensityConfig)
    (hdw : 0 ≤ c.duvol_weight) (hnw : 0 ≤ c.ncskew_weight)
    (hvw : 0 ≤ c.volatility_weight) (hcw : 0 ≤ c.canary_weight)
    (hmw : 0 ≤ c.momentum_weight)
    (hvalid : mkCrashIntensityScorer c = some c)
    (hdh : 0 < c.duvol_high) (hnh : 0 < c.ncskew_high)
    (hvm : 1 ≤ c.vol_spike_multiplier) :
    (∀ row : FeatureRow, 0 ≤ calculate_crash_intensity c row ∧
      calculate_crash_intensity c row ≤ 100) ∧
    (∀ (row : FeatureRow) (x y : ℚ), x ≤ y →
      calculate_crash_intensity c { row with duvol := .val x } ≤
        calculate_crash_intensity c { row with duvol := .val y }) ∧
    (∀ (row : FeatureRow) (x y : ℚ), x ≤ y →
      calculate_crash_intensity c { row with ncskew := .val x } ≤
        calculate_crash_intensity c { row with ncskew := .val y }) ∧
    (∀ (row : FeatureRow) (x y : ℚ), x ≤ y →
      calculate_crash_intensity c { row with volatility_10d := .val x } ≤
        calculate_crash_intensity c { row with volatility_10d := .val y }) ∧
    (∀ (row : FeatureRow) (m1 m2 : ℚ), 0 ≤ m1 → m1 ≤ m2 →
      calculate_crash_intensity c { row with ret := .val (-m1) } ≤
        calculate_crash_intensity c { row with ret := .val (-m2) }) ∧
    (∀ (row : FeatureRow) (m1 m2 : ℚ), 0 ≤ m1 → m1 ≤ m2 →
      calculate_crash_intensity c { row with nasdaq_returns := .val (-m1) } ≤
        calculate_crash_intensity c { row with nasdaq_returns := .val (-m2) }) := by
  refine ⟨fun row => ⟨cis_nonneg c hdw hnw hvw hcw hmw row, cis_le_100 c row⟩,
    ?_, ?_, ?_, ?_, ?_⟩
  · intro row x y h
    exact cis_mono_of_parts c hdw hnw hvw hcw hmw _ _
      (duvol_part_mono c hdh x y h) le_rfl le_rfl le_rfl le_rfl
  · intro row x y h
    exact cis_mono_of_parts c hdw hnw hvw hcw hmw _ _
      le_rfl (ncskew_part_mono c hnh x y h) le_rfl le_rfl le_rfl
  · intro row x y h
    exact cis_mono_of_parts c hdw hnw hvw hcw hmw _ _
      le_rfl le_rfl (vol_part_mono c hvm row.volatility_30d x y h) le_rfl le_rfl
  · intro row m1 m2 h0 h
    exact cis_mono_of_parts c hdw hnw hvw hcw hmw _ _
      le_rfl le_rfl le_rfl (momentum_part_mono m1 m2 h0 h) le_rfl
  · intro row m1 m2 h0 h
    exact cis_mono_of_parts c hdw hnw hvw hcw hmw _ _
      le_rfl le_rfl le_rfl le_rfl (canary_part_mono m1 m2 h0 h)

/-- C5 witness: the default configuration keeps the empty row's CIS in
[0, 100], and raising duvol from 0 to 1, or the drop magnitudes from 0 to
1, never lowers the score. -/
theorem c5_cis_bounds_and_monotonicity_witness :
    (0 ≤ calculate_crash_intensity {} {} ∧
      calculate_crash_intensity {} {} ≤ 100) ∧
    calculate_crash_intensity {} { duvol := FField.val 0 } ≤
      calculate_crash_intensity {} { duvol := FField.val 1 } ∧
    calculate_crash_intensity {} { ret := FField.val (-0) } ≤
      calculate_crash_intensity {} { ret := FField.val (-1) } := by
  have h := c5_cis_bounds_and_monotonicity {} (by norm_num) (by norm_num)
    (by norm_num) (by norm_num) (by norm_num)
    (by norm_num [mkCrashIntensityScorer, CrashIntensityConfig.weightTotal])
    (by norm_num) (by norm_num) (by norm_num)
  exact ⟨h.1 {}, h.2.1 {} 0 1 (by norm_num), h.2.2.2.2.1 {} 0 1 (by norm_num) (by norm_num)⟩

/-! ### C2: portfolio-rebalance solvency -/

/-- With percentage fees summing to at most one, a trade's cost never
exceeds its (non-negative) notional. -/
lemma sub_cost_nonneg (b : Backtester) (hs : 0 ≤ b.slippage_pct)
    (hc : 0 ≤ b.commission_pct)
    (hsum : b.slippage_pct + b.commission_pct ≤ 1) (v : ℚ) (hv : 0 ≤ v) :
    0 ≤ v - b.calculate_transaction_costs v := by
  unfold Backtester.calculate_transaction_costs
  rw [abs_of_nonneg hv]
  nlinarith

/-- The solvency invariant inside a rebalance: non-negative cash and
non-negative holdings in every asset. -/
def RebInv {n : ℕ} (st : RebState n) : Prop :=
  0 ≤ st.cash ∧ ∀ i, 0 ≤ st.holdings i

/-- A sell leg preserves solvency: it reduces the position exactly to the
(non-negative) target value and credits the proceeds net of cost. -/
lemma sellLeg_inv (b : Backtester) {n : ℕ} (hs : 0 ≤ b.slippage_pct)
    (hc : 0 ≤ b.commission_pct)
    (hsum : b.slippage_pct + b.commission_pct ≤ 1)
    (pv : ℚ) (pr tw : Fin n → ℚ) (st : RebState n) (a : Fin n)
    (hpv : 0 ≤ pv) (hpr : ∀ i, 0 < pr i) (htw : ∀ i, 0 ≤ tw i)
    (hinv : RebInv st) : RebInv (b.sellLeg pv pr tw st a) := by
  obtain ⟨hcash, hhold⟩ := hinv
  unfold Backtester.sellLeg
  dsimp only
  split_ifs with htr
  · have hsv : 0 ≤ st.holdings a * pr a - pv * tw a :=
      le_of_lt (sub_pos.mpr htr)
    constructor
    · exact add_nonneg hcash (sub_cost_nonneg b hs hc hsum _ hsv)
    · intro i
      dsimp only
      by_cases hi : i = a
      · subst hi
        rw [Function.update_same]
        have hpa : (0:ℚ) < pr i := hpr i
        have hrw : st.holdings i - (st.holdings i * pr i - pv * tw i) / pr i =
            pv * tw i / pr i := by
          field_simp
        rw [hrw]
        exact div_nonneg (mul_nonneg hpv (htw i)) hpa.le
      · rw [Function.update_noteq hi]
        exact hhold i
  · exact ⟨hcash, hhold⟩

/-- A buy leg preserves solvency: the amount spent is capped at the cash
available at that moment, and the units bought are non-negative because
the cost never exceeds the notional. -/
lemma buyLeg_inv (b : Backtester) {n : ℕ} (hs : 0 ≤ b.slippage_pct)
    (hc : 0 ≤ b.commission_pct)
    (hsum : b.slippage_pct + b.commission_pct ≤ 1)
    (pv : ℚ) (pr tw : Fin n → ℚ) (st : RebState n) (a : Fin n)
    (hpr : ∀ i, 0 < pr i) (hinv : RebInv st) :
    RebInv (b.buyLeg pv pr tw st a) := by
  obtain ⟨hcash, hhold⟩ := hinv
  unfold Backtester.buyLeg
  dsimp only
  split_ifs with htr hraw hpos hpos
  · -- capped at cash, trade executed
    refine ⟨by linarith, fun i => ?_⟩
    dsimp only
    by_cases hi : i = a
    · subst hi
      rw [Function.update_same]
      refine add_nonneg (hhold i) (div_nonneg ?_ (hpr i).le)
      exact sub_cost_nonneg b hs hc hsum _ (le_of_lt hpos)
    · rw [Function.update_noteq hi]
      exact hhold i
  · exact ⟨hcash, hhold⟩
  · -- uncapped, trade executed
    have hle : pv * tw a - st.holdings a * pr a ≤ st.cash := not_lt.mp hraw
    refine ⟨by linarith, fun i => ?_⟩
    dsimp only
    by_cases hi : i = a
    · subst hi
      rw [Function.update_same]
      refine add_nonneg (hhold i) (div_nonneg ?_ (hpr i).le)
      exact sub_cost_nonneg b hs hc hsum _ (le_of_lt hpos)
    · rw [Function.update_noteq hi]
      exact hhold i
  · exact ⟨hcash, hhold⟩
  · exact ⟨hcash, hhold⟩

/-- A fold of solvency-preserving legs preserves solvency. -/
lemma foldl_preserves {n : ℕ} (f : RebState n → Fin n → RebState n)
    (hf : ∀ st a, RebInv st → RebInv (f st a)) :
    ∀ (l : List (Fin n)) (st : RebState n), RebInv st → RebInv (l.foldl f st) := by
  intro l
  induction l with
  | nil => intro st h; exact h
  | cons a rest ih => intro st h; exact ih _ (hf st a h)

/-- One day of the portfolio backtest preserves solvency: both the carried
state and the emitted record have non-negative cash and holdings, whether
or not a rebalance (sell pass then buy pass) was triggered. -/
lemma portfolioStep_inv (b : Backtester) {n : ℕ} (hs : 0 ≤ b.slippage_pct)
    (hc : 0 ≤ b.commission_pct)
    (hsum : b.slippage_pct + b.commission_pct ≤ 1)
    (thr : ℚ) (st : PortState n) (pr tw : Fin n → ℚ)
    (hpr : ∀ i, 0 < pr i) (htw : ∀ i, 0 ≤ tw i)
    (hcash : 0 ≤ st.cash) (hhold : ∀ i, 0 ≤ st.holdings i) :
    (0 ≤ (b.portfolioStep thr st pr tw).1.cash ∧
      ∀ i, 0 ≤ (b.portfolioStep thr st pr tw).1.holdings i) ∧
    (0 ≤ (b.portfolioStep thr st pr tw).2.cash ∧
      ∀ i, 0 ≤ (b.portfolioStep thr st pr tw).2.units i) := by
  have hpv : 0 ≤ st.cash + ∑ a, st.holdings a * pr a :=
    add_nonneg hcash (Finset.sum_nonneg fun a _ =>
      mul_nonneg (hhold a) (hpr a).le)
  have hbase : RebInv (⟨st.cash, st.holdings, 0⟩ : RebState n) := ⟨hcash, hhold⟩
  have hreb : ∀ cond : Bool, RebInv (if cond then
      (List.finRange n).foldl
        (b.buyLeg (st.cash + ∑ a, st.holdings a * pr a) pr tw)
        ((List.finRange n).foldl
          (b.sellLeg (st.cash + ∑ a, st.holdings a * pr a) pr tw)
          ⟨st.cash, st.holdings, 0⟩)
    else ⟨st.cash, st.holdings, 0⟩) := by
    intro cond
    cases cond
    · exact hbase
    · simp only [if_true]
      refine foldl_preserves _ (fun st2 a2 h2 =>
        buyLeg_inv b hs hc hsum _ pr tw st2 a2 hpr h2) _ _
        (foldl_preserves _ (fun st2 a2 h2 =>
          sellLeg_inv b hs hc hsum _ pr tw st2 a2 hpv hpr htw h2) _ _ hbase)
  unfold Backtester.portfolioStep
  dsimp only
  constructor
  · exact ⟨(hreb _).1, (hreb _).2⟩
  · exact ⟨(hreb _).1, (hreb _).2⟩

/-- Along the whole portfolio backtest, every emitted record keeps cash
and all holdings non-negative (positive prices, non-negative target
weights, sane fee percentages, non-negative starting state). -/
lemma runPortfolioFrom_inv (b : Backtester) {n : ℕ} (hs : 0 ≤ b.slippage_pct)
    (hc : 0 ≤ b.commission_pct)
    (hsum : b.slippage_pct + b.commission_pct ≤ 1) (thr : ℚ) :
    ∀ (days : List ((Fin n → ℚ) × (Fin n → ℚ))),
      (∀ day ∈ days, (∀ i, 0 < day.1 i) ∧ (∀ i, 0 ≤ day.2 i)) →
      ∀ (st : PortState n), 0 ≤ st.cash → (∀ i, 0 ≤ st.holdings i) →
      ∀ rec ∈ b.runPortfolioFrom thr st days,
        0 ≤ rec.cash ∧ ∀ i, 0 ≤ rec.units i := by
  intro days
  induction days with
  | nil =>
      intro _ st _ _ rec hmem
      simp [Backtester.runPortfolioFrom] at hmem
  | cons day rest ih =>
      intro hdays st hcash hhold rec hmem
      obtain ⟨pr, tw⟩ := day
      have hday := hdays (pr, tw) (List.mem_cons_self _ _)
      have hstep := portfolioStep_inv b hs hc hsum thr st pr tw
        hday.1 hday.2 hcash hhold
      simp only [Backtester.runPortfolioFrom, List.mem_cons] at hmem
      rcases hmem with hh | ht
      · subst hh
        exact hstep.2
      · exact ih (fun d hd => hdays d (List.mem_cons_of_mem _ hd)) _
          hstep.1.1 hstep.1.2 rec ht

/-- C2: solvency of the portfolio rebalance.  For sane percentage fees,
positive prices and non-negative target weights: every sell leg and every
buy leg preserves non-negative cash and non-negative holdings (the buy is
capped at the cash available at that moment), so solvency holds at every
intermediate point of the sell-then-buy rebalance; and starting from
non-negative capital and zero holdings, every record of
`run_portfolio_backtest` has non-negative cash and non-negative holdings
in every asset. -/
theorem c2_portfolio_solvency (b : Backtester)
    (hs : 0 ≤ b.slippage_pct) (hc : 0 ≤ b.commission_pct)
    (hsum : b.slippage_pct + b.commission_pct ≤ 1)
    (hcap : 0 ≤ b.initial_capital) {n : ℕ} (thr : ℚ)
    (days : List ((Fin n → ℚ) × (Fin n → ℚ)))
    (hdays : ∀ day ∈ days, (∀ i, 0 < day.1 i) ∧ (∀ i, 0 ≤ day.2 i)) :
    (∀ (pv : ℚ) (pr tw : Fin n → ℚ) (st : RebState n) (a : Fin n),
      0 ≤ pv → (∀ i, 0 < pr i) → (∀ i, 0 ≤ tw i) →
      0 ≤ st.cash → (∀ i, 0 ≤ st.holdings i) →
      0 ≤ (b.sellLeg pv pr tw st a).cash ∧
        ∀ i, 0 ≤ (b.sellLeg pv pr tw st a).holdings i) ∧
    (∀ (pv : ℚ) (pr tw : Fin n → ℚ) (st : RebState n) (a : Fin n),
      (∀ i, 0 < pr i) → 0 ≤ st.cash → (∀ i, 0 ≤ st.holdings i) →
      0 ≤ (b.buyLeg pv pr tw st a).cash ∧
        ∀ i, 0 ≤ (b.buyLeg pv pr tw st a).holdings i) ∧
    (∀ rec ∈ b.run_portfolio_backtest days thr,
      0 ≤ rec.cash ∧ ∀ i, 0 ≤ rec.units i) := by
  refine ⟨?_, ?_, ?_⟩
  · intro pv pr tw st a hpv hpr htw hcash hhold
    exact sellLeg_inv b hs hc hsum pv pr tw st a hpv hpr htw ⟨hcash, hhold⟩
  · intro pv pr tw st a hpr hcash hhold
    exact buyLeg_inv b hs hc hsum pv pr tw st a hpr ⟨hcash, hhold⟩
  · intro rec hmem
    exact runPortfolioFrom_inv b hs hc hsum thr days hdays
      ⟨b.initial_capital, fun _ => 0⟩ hcap (fun _ => le_rfl) rec hmem

/-- C2 witness: with the default backtester on a one-day, one-asset
history (price 100, target weight 0), the all-cash record stays solvent;
and a concrete sell leg (holdings 10 at price 100, target value 500) and a
concrete cash-capped buy leg both keep cash and holdings non-negative. -/
theorem c2_portfolio_solvency_witness :
    (0 ≤ (Backtester.sellLeg {} 1000 (fun _ : Fin 1 => 100) (fun _ => 1/2)
        ⟨0, fun _ => 10, 0⟩ 0).cash ∧
      ∀ i, 0 ≤ (Backtester.sellLeg {} 1000 (fun _ : Fin 1 => 100) (fun _ => 1/2)
        ⟨0, fun _ => 10, 0⟩ 0).holdings i) ∧
    (0 ≤ (Backtester.buyLeg {} 1000 (fun _ : Fin 1 => 100) (fun _ => 1/2)
        ⟨50, fun _ => 0, 0⟩ 0).cash ∧
      ∀ i, 0 ≤ (Backtester.buyLeg {} 1000 (fun _ : Fin 1 => 100) (fun _ => 1/2)
        ⟨50, fun _ => 0, 0⟩ 0).holdings i) ∧
    (0 ≤ (⟨100000, 100000, 0, fun _ => 0, fun _ => 0⟩ : PRecord 1).cash ∧
      ∀ i, 0 ≤ (⟨100000, 100000, 0, fun _ => 0, fun _ => 0⟩ : PRecord 1).units i) := by
  have hdays : ∀ day ∈ [((fun _ : Fin 1 => (100:ℚ)), (fun _ : Fin 1 => (0:ℚ)))],
      (∀ i, 0 < day.1 i) ∧ (∀ i, 0 ≤ day.2 i) := by
    intro day hday
    simp only [List.mem_singleton] at hday
    subst hday
    exact ⟨fun i => by norm_num, fun i => by norm_num⟩
  have h := c2_portfolio_solvency {} (by norm_num) (by norm_num) (by norm_num)
    (by norm_num) (1/100)
    [((fun _ : Fin 1 => (100:ℚ)), (fun _ : Fin 1 => (0:ℚ)))] hdays
  have hmem : (⟨100000, 100000, 0, fun _ => 0, fun _ => 0⟩ : PRecord 1) ∈
      Backtester.run_portfolio_backtest {}
        [((fun _ : Fin 1 => (100:ℚ)), (fun _ : Fin 1 => (0:ℚ)))] (1/100) := by
    have hfr : (List.finRange 1) = [(0 : Fin 1)] := rfl
    norm_num [Backtester.run_portfolio_backtest, Backtester.runPortfolioFrom,
      Backtester.portfolioStep, hfr]
  exact ⟨h.1 1000 (fun _ => 100) (fun _ => 1/2) ⟨0, fun _ => 10, 0⟩ 0
      (by norm_num) (fun i => by norm_num) (fun i => by norm_num)
      (by norm_num) (fun i => by norm_num),
    h.2.1 1000 (fun _ => 100) (fun _ => 1/2) ⟨50, fun _ => 0, 0⟩ 0
      (fun i => by norm_num) (by norm_num) (fun i => by norm_num),
    h.2.2 _ hmem⟩

end FinPilot
